import Mathlib

/-!
Verification development for the HomeAdvisor backend
(`backend/routes/businesses/*.js` plus the Knex migration and seed files).

The JavaScript routes are shallowly embedded as pure Lean functions over an
explicit relational store (`DB`).  SQL behaviour relevant to the routes is
modelled directly:

* `round(avg(rating), 1)` over a review set becomes an exact rational mean
  rounded to one decimal (`round1`); `avg` over an empty set is `NULL`,
  modelled as `none`.
* `ORDER BY` becomes `List.insertionSort` on the ordering column;
  `LIMIT n` becomes `List.take n` after sorting.
* `col LIKE '%pat%'` (SQLite default: ASCII case-insensitive) becomes a
  case-insensitive substring test; a `NULL` column never matches.
* a `WHERE` comparison against a `NULL` aggregate (`avgRating >= r`) is
  never satisfied, matching SQL three-valued logic.
* multi-row `INSERT` statements fail as a whole when a not-null or
  unique constraint of the migration is violated, and
  `db.transaction` is all-or-nothing: on any failed insert the original
  store is returned unchanged.

Server-generated UUIDs are modelled as explicit id parameters (the routes
never derive behaviour from their value).  Timestamp columns are omitted
except `reviews.created_at`, the only one an ordering depends on.
-/

namespace HomeAdvisor

/-- Row of the `businesses` table (migration `createTable('businesses')`).
`name` is NOT NULL and UNIQUE; the address columns are nullable. -/
structure Business where
  id : String
  name : String
  addressLine1 : Option String
  addressLine2 : Option String
  city : Option String
  state : Option String
  postal : Option String
deriving DecidableEq, Repr

/-- Row of the `locations` table: `(businessId, name)` is UNIQUE, `name` NOT NULL. -/
structure LocationRow where
  id : String
  businessId : String
  name : String
deriving DecidableEq, Repr

/-- Row of the `hours` table: `(businessId, dayOfWeek)` is UNIQUE; `dayOfWeek`,
`open`, `close` are NOT NULL integers with no further store constraint
(the migration notes the range/interval checks are deliberately omitted).
`open` is a Lean keyword, so that column is called `openH` here. -/
structure HourRow where
  id : String
  businessId : String
  dayOfWeek : Int
  openH : Int
  close : Int
deriving DecidableEq, Repr

/-- Row of the `services` table: `(businessId, name)` is UNIQUE, `name` NOT NULL. -/
structure ServiceRow where
  id : String
  businessId : String
  name : String
deriving DecidableEq, Repr

/-- Row of the `reviews` table: `rating` NOT NULL, `comment` nullable,
`created_at` the insertion timestamp (used only for ordering). -/
structure ReviewRow where
  id : String
  businessId : String
  rating : ℚ
  comment : Option String
  created_at : Nat
deriving DecidableEq, Repr

/-- The relational store: the five tables of the migration. -/
structure DB where
  businesses : List Business
  locations : List LocationRow
  hours : List HourRow
  services : List ServiceRow
  reviews : List ReviewRow
deriving DecidableEq, Repr

/-- JavaScript truthiness for an optional string field: `undefined` and the
empty string are falsy (`if (search.name) ...`). -/
def truthy : Option String → Option String
  | some s => if s = "" then none else some s
  | none => none

/-- JavaScript `toLowerCase()`, modelled character-wise (the routes only
rely on its ASCII behaviour). -/
def strToLower (s : String) : String := ⟨s.data.map Char.toLower⟩

/-- `SELECT count(*) FROM businesses WHERE id = ?` compared with `< 1`. -/
def businessExists (db : DB) (id : String) : Bool :=
  db.businesses.any (fun b => b.id == id)

/-- `reviews` rows of one business (`where({businessId})`). -/
def reviewsFor (db : DB) (businessId : String) : List ReviewRow :=
  db.reviews.filter (fun r => r.businessId == businessId)

/-- SQL `round(q, 1)`: one-decimal rounding of an exact rational. -/
def round1 (q : ℚ) : ℚ :=
  ((round (10 * q) : ℤ) : ℚ) / 10

/-- The correlated subquery `select round(avg(rating),1) from reviews where
reviews.businessId = businesses.id`: `NULL` (`none`) when the business has no
reviews, otherwise the rounded arithmetic mean. -/
def avgRating (db : DB) (businessId : String) : Option ℚ :=
  match (reviewsFor db businessId).map ReviewRow.rating with
  | [] => none
  | r :: rs => some (round1 ((r :: rs).sum / (r :: rs).length))

/-- `getLocations` from `businesses.js`: rows of the business ordered by
`name`, and `undefined` instead of an empty list. -/
def getLocations (db : DB) (businessId : String) : Option (List LocationRow) :=
  let items := List.insertionSort (fun a b => a.name ≤ b.name)
    (db.locations.filter (fun l => l.businessId == businessId))
  if items.isEmpty then none else some items

/-- `getHours` from `businesses.js`: rows ordered by `dayOfWeek`,
`undefined` when empty. -/
def getHours (db : DB) (businessId : String) : Option (List HourRow) :=
  let items := List.insertionSort (fun a b => a.dayOfWeek ≤ b.dayOfWeek)
    (db.hours.filter (fun h => h.businessId == businessId))
  if items.isEmpty then none else some items

/-- `getServices` from `businesses.js`: rows ordered by `name`,
`undefined` when empty. -/
def getServices (db : DB) (businessId : String) : Option (List ServiceRow) :=
  let items := List.insertionSort (fun a b => a.name ≤ b.name)
    (db.services.filter (fun s => s.businessId == businessId))
  if items.isEmpty then none else some items

/-- `getReviews` from `businesses.js`: rows ordered by `created_at`,
`undefined` when empty. -/
def getReviews (db : DB) (businessId : String) : Option (List ReviewRow) :=
  let items := List.insertionSort (fun a b => a.created_at ≤ b.created_at)
    (db.reviews.filter (fun r => r.businessId == businessId))
  if items.isEmpty then none else some items

/-- A business record as returned by `GET /businesses/:id` and by search:
the scalar row, the correlated `avgRating`, and the four hydrated child
collections (each `undefined` when empty). -/
structure HydratedBusiness where
  business : Business
  avgRating : Option ℚ
  locations : Option (List LocationRow)
  hours : Option (List HourRow)
  services : Option (List ServiceRow)
  reviews : Option (List ReviewRow)
deriving DecidableEq, Repr

/-- The hydration step shared by `GET /businesses/:id` and
`POST /businesses/search`: attach `avgRating` and the four collections. -/
def hydrate (db : DB) (b : Business) : HydratedBusiness :=
  { business := b
    avgRating := avgRating db b.id
    locations := getLocations db b.id
    hours := getHours db b.id
    services := getServices db b.id
    reviews := getReviews db b.id }

/-- `router.get('/:businessId')` of `businesses.js`: `none` models the 404
branch, `some` the 200 body. -/
def getBusinessById (db : DB) (id : String) : Option HydratedBusiness :=
  match db.businesses.filter (fun b => b.id == id) with
  | [] => none
  | b :: _ => some (hydrate db b)

/-! ### POST /businesses/search -/

/-- `MAX_BUSINESS_PER_PAGE` from `businesses.js`. -/
def MAX_BUSINESS_PER_PAGE : Nat := 25

/-- The sparse `Search` request body (swagger schema `Search`):
absent JSON fields are `none`. -/
structure Search where
  name : Option String := none
  addressLine1 : Option String := none
  addressLine2 : Option String := none
  city : Option String := none
  state : Option String := none
  postal : Option String := none
  dayOfWeek : Option Int := none
  hour : Option Int := none
  service : Option String := none
  location : Option String := none
  rating : Option ℚ := none
  sortBy : Option String := none
  sortDirection : Option String := none
deriving DecidableEq, Repr

/-- `search.dayOfWeek < 0 || search.dayOfWeek > 6` — in JavaScript both
comparisons are false when the field is `undefined`. -/
def dayOfWeekOob : Option Int → Bool
  | some d => decide (d < 0) || decide (6 < d)
  | none => false

/-- `search.hour < 0 || search.hour > 23`, false when `undefined`. -/
def hourOob : Option Int → Bool
  | some h => decide (h < 0) || decide (23 < h)
  | none => false

/-- The validation prefix of `router.post('/search')`, performed before any
query is issued.  `none` models the 400 response; `some (sortBy,
sortDirection)` the lower-cased/defaulted sort specification the query is
built with. -/
def validateSearch (s : Search) : Option (String × String) :=
  if (s.dayOfWeek.isSome && s.hour.isNone) || (s.dayOfWeek.isNone && s.hour.isSome) then
    none
  else if dayOfWeekOob s.dayOfWeek then
    none
  else if hourOob s.hour then
    none
  else
    match truthy s.sortBy with
    | some sb0 =>
      let sb := strToLower sb0
      if sb = "name" || sb = "rating" then withDirection sb s else none
    | none => withDirection "name" s
where
  /-- The `sortDirection` half of the validation. -/
  withDirection (sb : String) (s : Search) : Option (String × String) :=
    match truthy s.sortDirection with
    | some sd0 =>
      let sd := strToLower sd0
      if sd = "asc" || sd = "desc" then some (sb, sd) else none
    | none => some (sb, "asc")

/-- Case-insensitive substring test on character lists. -/
def charsContain (pat : List Char) : List Char → Bool
  | [] => pat.isEmpty
  | c :: rest => pat.isPrefixOf (c :: rest) || charsContain pat rest

/-- `col LIKE '%pat%'` under SQLite's default ASCII case-insensitive
collation for `LIKE` (the route additionally lower-cases the pattern). -/
def likeContains (col pat : String) : Bool :=
  charsContain (strToLower pat).toList (strToLower col).toList

/-- One conditional text filter of the search builder: applied only when the
search field is truthy; a `NULL` column never matches `LIKE`. -/
def likeCond (pat : Option String) (col : Option String) : Bool :=
  match truthy pat with
  | none => true
  | some p =>
    match col with
    | none => false
    | some v => likeContains v p

/-- The `whereExists` filter on `hours`: applied when both `dayOfWeek` and
`hour` are supplied (`!== undefined`), requiring a row of the business with
that `dayOfWeek` and `open <= hour <= close`. -/
def hoursCond (db : DB) (s : Search) (b : Business) : Bool :=
  match s.dayOfWeek, s.hour with
  | some d, some h =>
    db.hours.any (fun hr =>
      hr.dayOfWeek == d && decide (hr.openH ≤ h) && decide (h ≤ hr.close) &&
        hr.businessId == b.id)
  | _, _ => true

/-- The `whereExists` filter on `services` (truthy `service` field). -/
def serviceCond (db : DB) (s : Search) (b : Business) : Bool :=
  match truthy s.service with
  | none => true
  | some p => db.services.any (fun sv => likeContains sv.name p && sv.businessId == b.id)

/-- The `whereExists` filter on `locations` (truthy `location` field). -/
def locationCond (db : DB) (s : Search) (b : Business) : Bool :=
  match truthy s.location with
  | none => true
  | some p => db.locations.any (fun lc => likeContains lc.name p && lc.businessId == b.id)

/-- The `avgRating >= search.rating` filter (applied when `rating !==
undefined`); a `NULL` aggregate never satisfies the comparison. -/
def ratingCond (db : DB) (s : Search) (b : Business) : Bool :=
  match s.rating with
  | none => true
  | some r =>
    match avgRating db b.id with
    | none => false
    | some a => decide (r ≤ a)

/-- The composed `WHERE` clause of the search query: the conditional filters
of the builder, AND-combined in source order. -/
def matchesSearch (db : DB) (s : Search) (b : Business) : Bool :=
  likeCond s.name (some b.name) &&
  likeCond s.addressLine1 b.addressLine1 &&
  likeCond s.addressLine2 b.addressLine2 &&
  likeCond s.city b.city &&
  likeCond s.state b.state &&
  likeCond s.postal b.postal &&
  hoursCond db s b &&
  serviceCond db s b &&
  locationCond db s b &&
  ratingCond db s b

/-- The `avgRating` column as an ordering key: SQL `NULL` sorts before
every value ascending, which is the bottom of `WithBot ℚ`. -/
def ratingKey (db : DB) (businessId : String) : WithBot ℚ :=
  match avgRating db businessId with
  | none => ⊥
  | some q => (q : WithBot ℚ)

/-- Ascending comparison used by `orderBy`: the `avgRating` column when
`sortBy === 'rating'`, otherwise the `name` column. -/
def sortLe (db : DB) (sortBy : String) (a b : Business) : Bool :=
  if sortBy = "rating" then decide (ratingKey db a.id ≤ ratingKey db b.id)
  else decide (a.name ≤ b.name)

/-- `ORDER BY <col> <direction>`: descending is the flipped comparison
(`NULL` last, matching SQLite). -/
def sortBusinesses (db : DB) (sortBy direction : String) (l : List Business) :
    List Business :=
  if direction = "desc" then
    List.insertionSort (fun a b => sortLe db sortBy b a = true) l
  else
    List.insertionSort (fun a b => sortLe db sortBy a b = true) l

/-- The executed search query plus hydration: filter, order, `LIMIT 25`,
then hydrate each row in order. -/
def searchItems (db : DB) (s : Search) (sortBy direction : String) :
    List HydratedBusiness :=
  ((sortBusinesses db sortBy direction
      (db.businesses.filter (fun b => matchesSearch db s b))).take
    MAX_BUSINESS_PER_PAGE).map (hydrate db)

/-- Outcome of `POST /businesses/search`. -/
inductive SearchResponse where
  | badRequest
  | notFound
  | ok (items : List HydratedBusiness)
deriving DecidableEq, Repr

/-- `router.post('/search')` end to end: validation, query, and the final
`businesses.length ? 200 : 404` dispatch. -/
def searchHandler (db : DB) (s : Search) : SearchResponse :=
  match validateSearch s with
  | none => .badRequest
  | some (sb, sd) =>
    let items := searchItems db s sb sd
    if items.isEmpty then .notFound else .ok items

/-! Claim-side formulations for C4 (named `spec...` — these follow the
claim's words, to be compared with `validateSearch`). -/

/-- Claim C4's words: exactly one of `dayOfWeek`/`hour` supplied. -/
def specExactlyOneOfDayHour (s : Search) : Bool :=
  (s.dayOfWeek.isSome && s.hour.isNone) || (s.dayOfWeek.isNone && s.hour.isSome)

/-- Claim C4's words: `sortBy` supplied with a lowercase form other than
`name`/`rating`. -/
def specSortByBad : Option String → Bool
  | some sb => !(strToLower sb == "name" || strToLower sb == "rating")
  | none => false

/-- Claim C4's words: `sortDirection` supplied with a lowercase form other
than `asc`/`desc`. -/
def specSortDirectionBad : Option String → Bool
  | some sd => !(strToLower sd == "asc" || strToLower sd == "desc")
  | none => false

/-- The disjunction of C4's listed 400 conditions, following the claim's
words literally ("supplied" = present in the body). -/
def specSearchInvalid (s : Search) : Bool :=
  specExactlyOneOfDayHour s || dayOfWeekOob s.dayOfWeek || hourOob s.hour ||
    specSortByBad s.sortBy || specSortDirectionBad s.sortDirection

/-- C4's 400 conditions as amended: an empty-string `sortBy`/`sortDirection`
is falsy in the route and is defaulted rather than rejected. -/
def specSearchInvalidAmended (s : Search) : Bool :=
  specExactlyOneOfDayHour s || dayOfWeekOob s.dayOfWeek || hourOob s.hour ||
    specSortByBad (truthy s.sortBy) || specSortDirectionBad (truthy s.sortDirection)

/-! ### POST /businesses (create with nested children) -/

/-- Nested location in a create body (only `name` is meaningful). -/
structure LocationPayload where
  name : Option String := none
deriving DecidableEq, Repr

/-- Nested hour in a create body. -/
structure HourPayload where
  dayOfWeek : Option Int := none
  openH : Option Int := none
  close : Option Int := none
deriving DecidableEq, Repr

/-- Nested service in a create body. -/
structure ServicePayload where
  name : Option String := none
deriving DecidableEq, Repr

/-- Nested review in a create body. -/
structure ReviewPayload where
  rating : Option ℚ := none
  comment : Option String := none
deriving DecidableEq, Repr

/-- Body of `POST /businesses`: scalar fields plus optional nested arrays
(an absent array behaves like an empty one — `addIds` passes it through and
the insert is skipped). Client-supplied ids/timestamps/avgRating are deleted
by the route and hence not modelled. -/
structure CreatePayload where
  name : Option String := none
  addressLine1 : Option String := none
  addressLine2 : Option String := none
  city : Option String := none
  state : Option String := none
  postal : Option String := none
  locations : List LocationPayload := []
  hours : List HourPayload := []
  services : List ServicePayload := []
  reviews : List ReviewPayload := []
deriving DecidableEq, Repr

/-- `addIds` plus row construction for nested locations: every row gets a
fresh id and the new `businessId`; a missing `name` makes the eventual
insert violate NOT NULL, modelled as `none`. -/
def buildLocationRows (businessId : String) (gen : Nat → String) :
    List LocationPayload → Nat → Option (List LocationRow)
  | [], _ => some []
  | p :: rest, k =>
    match p.name with
    | none => none
    | some nm =>
      (buildLocationRows businessId gen rest (k + 1)).map
        (fun rs => { id := gen k, businessId := businessId, name := nm } :: rs)

/-- Row construction for nested hours: `dayOfWeek`, `open`, `close` are all
NOT NULL; no range or `open < close` condition exists in the store. -/
def buildHourRows (businessId : String) (gen : Nat → String) :
    List HourPayload → Nat → Option (List HourRow)
  | [], _ => some []
  | p :: rest, k =>
    match p.dayOfWeek, p.openH, p.close with
    | some d, some o, some c =>
      (buildHourRows businessId gen rest (k + 1)).map
        (fun rs =>
          { id := gen k, businessId := businessId, dayOfWeek := d, openH := o,
            close := c } :: rs)
    | _, _, _ => none

/-- Row construction for nested services (`name` NOT NULL). -/
def buildServiceRows (businessId : String) (gen : Nat → String) :
    List ServicePayload → Nat → Option (List ServiceRow)
  | [], _ => some []
  | p :: rest, k =>
    match p.name with
    | none => none
    | some nm =>
      (buildServiceRows businessId gen rest (k + 1)).map
        (fun rs => { id := gen k, businessId := businessId, name := nm } :: rs)

/-- Row construction for nested reviews (`rating` NOT NULL, `comment`
nullable, `created_at` stamped with the transaction time). -/
def buildReviewRows (businessId : String) (now : Nat) (gen : Nat → String) :
    List ReviewPayload → Nat → Option (List ReviewRow)
  | [], _ => some []
  | p :: rest, k =>
    match p.rating with
    | none => none
    | some r =>
      (buildReviewRows businessId now gen rest (k + 1)).map
        (fun rs =>
          { id := gen k, businessId := businessId, rating := r,
            comment := p.comment, created_at := now } :: rs)

/-- A multi-row insert succeeds exactly when the new unique-key values are
pairwise distinct and absent from the existing table. -/
def uniqueInsertOk {κ : Type} [DecidableEq κ] (existing newKeys : List κ) : Bool :=
  decide newKeys.Nodup &&
    newKeys.all (fun k => existing.all (fun e => !(decide (e = k))))

/-- Outcome of `POST /businesses`: 400, 500 with the transaction rolled back
(the store unchanged), or 200 with the committed store and new id. -/
inductive CreateResult where
  | badRequest
  | storageError (db : DB)
  | created (db : DB) (id : String)
deriving DecidableEq, Repr

/-- `router.post('/')` of `businesses.js`: strip children/computed fields,
require a truthy `name`, then insert the business and each non-empty nested
collection inside one transaction.  Any constraint violation fails the
transaction as a whole and leaves the store untouched. `businessId` models
the fresh `uuid.v4()` of the business and `gen` those of the children. -/
def createBusiness (db : DB) (p : CreatePayload) (businessId : String)
    (gen : Nat → String) (now : Nat) : CreateResult :=
  match truthy p.name with
  | none => .badRequest
  | some nm =>
    let row : Business :=
      { id := businessId, name := nm, addressLine1 := p.addressLine1,
        addressLine2 := p.addressLine2, city := p.city, state := p.state,
        postal := p.postal }
    match buildLocationRows businessId gen p.locations 0,
        buildHourRows businessId gen p.hours 0,
        buildServiceRows businessId gen p.services 0,
        buildReviewRows businessId now gen p.reviews 0 with
    | some locs, some hrs, some svcs, some revs =>
      if uniqueInsertOk (db.businesses.map Business.name) [nm] &&
          uniqueInsertOk (db.locations.map (fun l => (l.businessId, l.name)))
            (locs.map (fun l => (l.businessId, l.name))) &&
          uniqueInsertOk (db.hours.map (fun h => (h.businessId, h.dayOfWeek)))
            (hrs.map (fun h => (h.businessId, h.dayOfWeek))) &&
          uniqueInsertOk (db.services.map (fun s => (s.businessId, s.name)))
            (svcs.map (fun s => (s.businessId, s.name))) then
        .created
          { db with
            businesses := db.businesses ++ [row]
            locations := db.locations ++ locs
            hours := db.hours ++ hrs
            services := db.services ++ svcs
            reviews := db.reviews ++ revs } businessId
      else .storageError db
    | _, _, _, _ => .storageError db

/-- Whether a create committed. -/
def isCreated : CreateResult → Bool
  | .created _ _ => true
  | _ => false

/-- Rewrites every nested hour's `open`/`close` values (presence preserved):
used to state that the outcome of a create is independent of those values. -/
def mapHourTimes (f g : Int → Int) (p : CreatePayload) : CreatePayload :=
  { p with
    hours := p.hours.map (fun h =>
      { h with openH := h.openH.map f, close := h.close.map g }) }

/-! ### PUT /businesses/:businessId -/

/-- Outcome of an update/delete route. -/
inductive OpResult where
  | invalidArgument
  | notFound
  | ok (db : DB)
deriving DecidableEq, Repr

/-- Case-sensitive JavaScript property lookup on a JSON object, modelled as
an association list — needed because the route reads the body under two
different spellings of the `addressLine2` key. -/
def bodyGet (body : List (String × String)) (k : String) : Option String :=
  (body.find? (fun kv => kv.fst == k)).map Prod.snd

/-- `field ? field : undefined` in the update object: knex drops `undefined`
columns, leaving the stored value. -/
def applyIfSome : Option String → Option String → Option String
  | some v, _ => some v
  | none, old => old

/-- `router.put('/:businessId')` of `businesses.js`.  The emptiness guard
reads `business.addressline2` (lower-case l, source line 498) while the
update object reads `business.addressLine2`; the association-list body keeps
those lookups distinct, exactly as JavaScript does. -/
def putBusiness (db : DB) (id : String) (body : List (String × String)) : OpResult :=
  if (truthy (bodyGet body "name")).isNone &&
      (truthy (bodyGet body "addressLine1")).isNone &&
      (truthy (bodyGet body "addressline2")).isNone &&
      (truthy (bodyGet body "city")).isNone &&
      (truthy (bodyGet body "state")).isNone &&
      (truthy (bodyGet body "postal")).isNone then
    .invalidArgument
  else if !businessExists db id then
    .notFound
  else
    .ok { db with
      businesses := db.businesses.map (fun b =>
        if b.id == id then
          { b with
            name := match truthy (bodyGet body "name") with
              | some v => v
              | none => b.name
            addressLine1 := applyIfSome (truthy (bodyGet body "addressLine1")) b.addressLine1
            addressLine2 := applyIfSome (truthy (bodyGet body "addressLine2")) b.addressLine2
            city := applyIfSome (truthy (bodyGet body "city")) b.city
            state := applyIfSome (truthy (bodyGet body "state")) b.state
            postal := applyIfSome (truthy (bodyGet body "postal")) b.postal }
        else b) }

/-! ### Child PUT/DELETE routes (hours, locations, services, reviews) -/

/-- `router.put('/:id')` of `hours.js`: body validation (dayOfWeek/open/close
present and in range, `open < close`), then parent-existence check, then
`update ... where({id, businessId})` — 200 even when zero rows match. -/
def hoursPut (db : DB) (businessId id : String) (p : HourPayload) : OpResult :=
  match p.dayOfWeek, p.openH, p.close with
  | some d, some o, some c =>
    if dayOfWeekOob (some d) then .invalidArgument
    else if hourOob (some o) then .invalidArgument
    else if hourOob (some c) then .invalidArgument
    else if decide (c ≤ o) then .invalidArgument
    else if !businessExists db businessId then .notFound
    else
      .ok { db with
        hours := db.hours.map (fun hr =>
          if hr.id == id && hr.businessId == businessId then
            { hr with dayOfWeek := d, openH := o, close := c }
          else hr) }
  | _, _, _ => .invalidArgument

/-- `router.delete('/:id')` of `hours.js`: parent-existence check, then
`del ... where({id, businessId})` — 200 even when zero rows match. -/
def hoursDelete (db : DB) (businessId id : String) : OpResult :=
  if !businessExists db businessId then .notFound
  else
    .ok { db with
      hours := db.hours.filter (fun hr =>
        !(hr.id == id && hr.businessId == businessId)) }

/-- `router.put('/:id')` of `locations.js` (truthy `name` required). -/
def locationsPut (db : DB) (businessId id : String) (p : LocationPayload) : OpResult :=
  match truthy p.name with
  | none => .invalidArgument
  | some nm =>
    if !businessExists db businessId then .notFound
    else
      .ok { db with
        locations := db.locations.map (fun l =>
          if l.id == id && l.businessId == businessId then { l with name := nm }
          else l) }

/-- `router.delete('/:id')` of `locations.js`. -/
def locationsDelete (db : DB) (businessId id : String) : OpResult :=
  if !businessExists db businessId then .notFound
  else
    .ok { db with
      locations := db.locations.filter (fun l =>
        !(l.id == id && l.businessId == businessId)) }

/-- `router.put('/:id')` of `services.js` (truthy `name` required). -/
def servicesPut (db : DB) (businessId id : String) (p : ServicePayload) : OpResult :=
  match truthy p.name with
  | none => .invalidArgument
  | some nm =>
    if !businessExists db businessId then .notFound
    else
      .ok { db with
        services := db.services.map (fun s =>
          if s.id == id && s.businessId == businessId then { s with name := nm }
          else s) }

/-- `router.delete('/:id')` of `services.js`. -/
def servicesDelete (db : DB) (businessId id : String) : OpResult :=
  if !businessExists db businessId then .notFound
  else
    .ok { db with
      services := db.services.filter (fun s =>
        !(s.id == id && s.businessId == businessId)) }

/-- Body of a review PUT: the route distinguishes an absent `comment`
(outer `none`: keep the stored value) from an explicit JSON `null`
(`some none`: reset the column to its NULL default). -/
structure ReviewPutPayload where
  rating : Option ℚ := none
  comment : Option (Option String) := none
deriving DecidableEq, Repr

/-- `review.rating === undefined || rating < 0 || rating > 5`. -/
def reviewRatingBad : Option ℚ → Bool
  | some r => decide (r < 0) || decide (5 < r)
  | none => true

/-- `router.put('/:id')` of `reviews.js`. -/
def reviewsPut (db : DB) (businessId id : String) (p : ReviewPutPayload) : OpResult :=
  if reviewRatingBad p.rating then .invalidArgument
  else if !businessExists db businessId then .notFound
  else
    .ok { db with
      reviews := db.reviews.map (fun rv =>
        if rv.id == id && rv.businessId == businessId then
          { rv with
            rating := p.rating.getD rv.rating
            comment := match p.comment with
              | none => rv.comment
              | some c => c }
        else rv) }

/-- `router.delete('/:id')` of `reviews.js`. -/
def reviewsDelete (db : DB) (businessId id : String) : OpResult :=
  if !businessExists db businessId then .notFound
  else
    .ok { db with
      reviews := db.reviews.filter (fun rv =>
        !(rv.id == id && rv.businessId == businessId)) }

/-! ### Auxiliary definitions used only to state the claims -/

/-- The claim's "other filters": the same search with the hours filter
removed. -/
def clearDayHour (s : Search) : Search :=
  { s with dayOfWeek := none, hour := none }

/-- A search body with no fields supplied. -/
def emptySearch : Search := {}

/-! ### Concrete fixtures -/

/-- The empty store. -/
def dbEmpty : DB := ⟨[], [], [], [], []⟩

/-- A deterministic stand-in for the child `uuid.v4()` calls. -/
def genId (k : Nat) : String := "child-" ++ toString k

/-- Create body whose nested hour violates `open < close` (open 10, close 9). -/
def pBadHour : CreatePayload :=
  { name := some "Sample Biz",
    hours := [{ dayOfWeek := some 1, openH := some 10, close := some 9 }] }

/-- The store committed by `pBadHour` on an empty store. -/
def dbAfterBadHour : DB :=
  ⟨[⟨"b-1", "Sample Biz", none, none, none, none, none⟩], [],
    [⟨"child-0", "b-1", 1, 10, 9⟩], [], []⟩

/-- Create body whose nested hours duplicate `dayOfWeek` 2 — a real
uniqueness violation of the `hours` table. -/
def pDupDay : CreatePayload :=
  { name := some "Sample Biz",
    hours := [{ dayOfWeek := some 2, openH := some 9, close := some 17 },
      { dayOfWeek := some 2, openH := some 10, close := some 18 }] }

/-- A stored business with no address data. -/
def putBiz : Business := ⟨"b1", "Biz", none, none, none, none, none⟩

/-- Store holding only `putBiz`. -/
def dbPut : DB := ⟨[putBiz], [], [], [], []⟩

/-- `dbPut` after a PUT supplying a new name and `addressLine2`. -/
def dbPutAfter : DB :=
  ⟨[⟨"b1", "NewName", none, some "Suite 100", none, none, none⟩], [], [], [], []⟩

/-- Search body supplying `sortBy` as the empty string. -/
def sEmptySortBy : Search := { sortBy := some "" }

/-- Search body with an out-of-range `dayOfWeek`. -/
def sBadDay : Search := { dayOfWeek := some 9, hour := some 3 }

/-- The example search of claim C5: Saturday (6) at hour 8. -/
def sSat : Search := { dayOfWeek := some 6, hour := some 8 }

/-- Business open Saturday 8–18 (claim C5's included example). -/
def satOpen : Business := ⟨"s1", "Early Open", none, none, none, none, none⟩

/-- Business open Saturday 9–12 only (claim C5's excluded example). -/
def satLate : Business := ⟨"s2", "Late Open", none, none, none, none, none⟩

/-- Store with the two Saturday businesses of claim C5. -/
def dbSat : DB :=
  ⟨[satOpen, satLate], [],
    [⟨"h1", "s1", 6, 8, 18⟩, ⟨"h2", "s2", 6, 9, 12⟩], [], []⟩

/-- A business with zero reviews. -/
def noRevBiz : Business := ⟨"n1", "NoReviews", none, none, none, none, none⟩

/-- Store holding only `noRevBiz`. -/
def dbNoRev : DB := ⟨[noRevBiz], [], [], [], []⟩

/-- Search filtering by rating 0. -/
def sRating0 : Search := { rating := some 0 }

/-- Search filtering by rating 5. -/
def sRating5 : Search := { rating := some 5 }

/-- The business of the hydration fixture `db8`. -/
def biz8 : Business := ⟨"b1", "Biz", none, none, none, none, none⟩

/-- Hydration fixture: one business, two rows in each child table, stored in
descending order of the respective sort keys. -/
def db8 : DB :=
  ⟨[biz8],
    [⟨"l2", "b1", "Boulder"⟩, ⟨"l1", "b1", "Arvada"⟩],
    [⟨"h2", "b1", 5, 9, 17⟩, ⟨"h1", "b1", 2, 9, 17⟩],
    [⟨"s2", "b1", "Packing"⟩, ⟨"s1", "b1", "Cleaning"⟩],
    [⟨"r2", "b1", 5, none, 20⟩, ⟨"r1", "b1", 4, some "ok", 10⟩]⟩

/-! ### Order instances for the sort relations -/

instance : IsTotal LocationRow (fun a b => a.name ≤ b.name) :=
  ⟨fun a b => le_total a.name b.name⟩

instance : IsTrans LocationRow (fun a b => a.name ≤ b.name) :=
  ⟨fun _ _ _ => le_trans⟩

instance : IsTotal HourRow (fun a b => a.dayOfWeek ≤ b.dayOfWeek) :=
  ⟨fun a b => le_total a.dayOfWeek b.dayOfWeek⟩

instance : IsTrans HourRow (fun a b => a.dayOfWeek ≤ b.dayOfWeek) :=
  ⟨fun _ _ _ => le_trans⟩

instance : IsTotal ServiceRow (fun a b => a.name ≤ b.name) :=
  ⟨fun a b => le_total a.name b.name⟩

instance : IsTrans ServiceRow (fun a b => a.name ≤ b.name) :=
  ⟨fun _ _ _ => le_trans⟩

instance : IsTotal ReviewRow (fun a b => a.created_at ≤ b.created_at) :=
  ⟨fun a b => le_total a.created_at b.created_at⟩

instance : IsTrans ReviewRow (fun a b => a.created_at ≤ b.created_at) :=
  ⟨fun _ _ _ => le_trans⟩

instance sortLeTotal (db : DB) (sortBy : String) :
    IsTotal Business (fun a b => sortLe db sortBy a b = true) := by
  constructor
  intro a b
  unfold sortLe
  split_ifs
  · simpa using le_total (ratingKey db a.id) (ratingKey db b.id)
  · simpa using le_total a.name b.name

instance sortLeTrans (db : DB) (sortBy : String) :
    IsTrans Business (fun a b => sortLe db sortBy a b = true) := by
  constructor
  intro a b c
  unfold sortLe
  split_ifs
  · simp only [decide_eq_true_eq]
    exact le_trans
  · simp only [decide_eq_true_eq]
    exact le_trans

/-! ### Helper lemmas -/

theorem mapIdOn {α : Type} (f : α → α) (l : List α) (h : ∀ x ∈ l, f x = x) :
    l.map f = l := by
  induction l with
  | nil => rfl
  | cons x xs ih =>
    simp only [List.map]
    rw [h x (List.mem_cons_self x xs), ih (fun y hy => h y (List.mem_cons_of_mem _ hy))]

theorem filterIdOn {α : Type} (p : α → Bool) (l : List α)
    (h : ∀ x ∈ l, p x = true) : l.filter p = l := by
  induction l with
  | nil => rfl
  | cons x xs ih =>
    simp only [List.filter, h x (List.mem_cons_self x xs)]
    rw [ih (fun y hy => h y (List.mem_cons_of_mem _ hy))]

theorem map_business_hydrate (db : DB) (l : List Business) :
    (l.map (hydrate db)).map HydratedBusiness.business = l := by
  rw [List.map_map]
  exact mapIdOn _ l (fun x _ => rfl)

theorem fetch_none_iff {α : Type} (r : α → α → Prop) [DecidableRel r]
    (rows : List α) :
    (if (List.insertionSort r rows).isEmpty then (none : Option (List α))
      else some (List.insertionSort r rows)) = none ↔ rows = [] := by
  have hlen := (List.perm_insertionSort r rows).length_eq
  constructor
  · intro h
    cases hs : List.insertionSort r rows with
    | nil =>
      have h0 : rows.length = 0 := by rw [← hlen, hs]; rfl
      exact List.length_eq_zero.mp h0
    | cons a t =>
      rw [hs] at h
      simp at h
  · intro h
    subst h
    rfl

theorem fetch_some_spec {α : Type} (r : α → α → Prop) [DecidableRel r]
    [IsTotal α r] [IsTrans α r] (rows xs : List α)
    (h : (if (List.insertionSort r rows).isEmpty then (none : Option (List α))
      else some (List.insertionSort r rows)) = some xs) :
    List.Sorted r xs ∧ xs.Perm rows := by
  by_cases he : (List.insertionSort r rows).isEmpty = true
  · rw [if_pos he] at h
    cases h
  · rw [if_neg he] at h
    obtain rfl := Option.some_inj.mp h
    exact ⟨List.sorted_insertionSort r rows, List.perm_insertionSort r rows⟩

theorem avgRating_empty (db : DB) (businessId : String)
    (h : reviewsFor db businessId = []) : avgRating db businessId = none := by
  unfold avgRating
  rw [h]
  rfl

theorem avgRating_nonempty (db : DB) (businessId : String)
    (h : reviewsFor db businessId ≠ []) :
    avgRating db businessId =
      some (round1 (((reviewsFor db businessId).map ReviewRow.rating).sum /
        ((reviewsFor db businessId).length : ℚ))) := by
  unfold avgRating
  cases hr : reviewsFor db businessId with
  | nil => exact absurd hr h
  | cons x xs =>
    simp only [List.map]
    rw [← List.length_map (x :: xs) ReviewRow.rating]
    rfl

theorem matches_empty (db : DB) (b : Business) :
    matchesSearch db emptySearch b = true := rfl

theorem sortLe_name (db : DB) (a b : Business) :
    sortLe db "name" a b = true ↔ a.name ≤ b.name := by
  unfold sortLe
  rw [if_neg (by decide)]
  simp

theorem mapCongrOn {α β : Type} (f g : α → β) (l : List α)
    (h : ∀ x ∈ l, f x = g x) : l.map f = l.map g := by
  induction l with
  | nil => rfl
  | cons x xs ih =>
    simp only [List.map]
    rw [h x (List.mem_cons_self x xs), ih (fun y hy => h y (List.mem_cons_of_mem _ hy))]

theorem buildHourRows_spec (businessId : String) (gen : Nat → String)
    (l : List HourPayload) :
    ∀ (k : Nat) (rs : List HourRow), buildHourRows businessId gen l k = some rs →
      l.map HourPayload.dayOfWeek = rs.map (fun r => some r.dayOfWeek) ∧
      ∀ r ∈ rs, r.businessId = businessId := by
  induction l with
  | nil =>
    intro k rs h
    simp only [buildHourRows, Option.some_inj] at h
    subst h
    exact ⟨rfl, by simp⟩
  | cons p rest ih =>
    intro k rs h
    simp only [buildHourRows] at h
    cases hd : p.dayOfWeek with
    | none => rw [hd] at h; cases h
    | some d =>
      cases ho : p.openH with
      | none => rw [hd, ho] at h; cases h
      | some o =>
        cases hc : p.close with
        | none => rw [hd, ho, hc] at h; cases h
        | some c =>
          rw [hd, ho, hc] at h
          cases hrec : buildHourRows businessId gen rest (k + 1) with
          | none => rw [hrec] at h; cases h
          | some rs' =>
            rw [hrec] at h
            simp only [Option.map_some', Option.some_inj] at h
            subst h
            obtain ⟨ihdays, ihbid⟩ := ih (k + 1) rs' hrec
            constructor
            · simp only [List.map, hd, ihdays]
            · intro r hr
              rcases List.mem_cons.mp hr with hr | hr
              · subst hr; rfl
              · exact ihbid r hr

theorem buildHourRows_mapTimes (businessId : String) (gen : Nat → String)
    (f g : Int → Int) (l : List HourPayload) :
    ∀ k : Nat,
      buildHourRows businessId gen
        (l.map (fun h => { h with openH := h.openH.map f, close := h.close.map g })) k =
      (buildHourRows businessId gen l k).map
        (List.map (fun r => { r with openH := f r.openH, close := g r.close })) := by
  induction l with
  | nil => intro k; rfl
  | cons p rest ih =>
    intro k
    simp only [List.map, buildHourRows]
    cases hd : p.dayOfWeek with
    | none => rfl
    | some d =>
      cases ho : p.openH with
      | none => rfl
      | some o =>
        cases hc : p.close with
        | none => rfl
        | some c =>
          simp only [Option.map_some']
          rw [ih (k + 1)]
          cases buildHourRows businessId gen rest (k + 1) <;> rfl

theorem keys_map_psi (f g : Int → Int) (hrs : List HourRow) :
    (hrs.map (fun r => { r with openH := f r.openH, close := g r.close })).map
      (fun h => (h.businessId, h.dayOfWeek)) =
    hrs.map (fun h => (h.businessId, h.dayOfWeek)) := by
  rw [List.map_map]
  rfl

/-! ### Claim theorems -/

/-- C2: for every business record returned by get-by-id or search, the
attached `avgRating` is the arithmetic mean of that business's review
ratings rounded to one decimal place when reviews exist, and absent
(`none`) when the business has zero reviews. -/
theorem C2_avgRating (db : DB) :
    (∀ id hb, getBusinessById db id = some hb →
      (reviewsFor db hb.business.id = [] → hb.avgRating = none) ∧
      (reviewsFor db hb.business.id ≠ [] →
        hb.avgRating = some (round1
          (((reviewsFor db hb.business.id).map ReviewRow.rating).sum /
            ((reviewsFor db hb.business.id).length : ℚ))))) ∧
    (∀ s sortBy direction hb, hb ∈ searchItems db s sortBy direction →
      (reviewsFor db hb.business.id = [] → hb.avgRating = none) ∧
      (reviewsFor db hb.business.id ≠ [] →
        hb.avgRating = some (round1
          (((reviewsFor db hb.business.id).map ReviewRow.rating).sum /
            ((reviewsFor db hb.business.id).length : ℚ))))) := by
  have key : ∀ b : Business,
      (reviewsFor db (hydrate db b).business.id = [] →
        (hydrate db b).avgRating = none) ∧
      (reviewsFor db (hydrate db b).business.id ≠ [] →
        (hydrate db b).avgRating = some (round1
          (((reviewsFor db (hydrate db b).business.id).map ReviewRow.rating).sum /
            ((reviewsFor db (hydrate db b).business.id).length : ℚ)))) := by
    intro b
    exact ⟨fun h => avgRating_empty db b.id h, fun h => avgRating_nonempty db b.id h⟩
  constructor
  · intro id hb h
    unfold getBusinessById at h
    cases hfil : db.businesses.filter (fun b => b.id == id) with
    | nil => rw [hfil] at h; cases h
    | cons b rest =>
      rw [hfil] at h
      obtain rfl := Option.some_inj.mp h
      exact key b
  · intro s sortBy direction hb h
    unfold searchItems at h
    obtain ⟨b, _, rfl⟩ := List.mem_map.mp h
    exact key b

/-- C2 witness: in the concrete store `db8`, get-by-id returns the hydrated
business, its review set is non-empty, and its `avgRating` is the rounded
mean of the ratings. -/
theorem C2_witness :
    getBusinessById db8 "b1" = some (hydrate db8 biz8) ∧
    reviewsFor db8 (hydrate db8 biz8).business.id ≠ [] ∧
    (hydrate db8 biz8).avgRating = some (round1
      (((reviewsFor db8 (hydrate db8 biz8).business.id).map ReviewRow.rating).sum /
        ((reviewsFor db8 (hydrate db8 biz8).business.id).length : ℚ))) :=
  ⟨rfl, by decide, ((C2_avgRating db8).1 "b1" (hydrate db8 biz8) rfl).2 (by decide)⟩

/-- C5: when both `dayOfWeek` and `hour` are supplied, a business matches
the search exactly when it matches all the other filters and has at least
one hour row with that `dayOfWeek` whose interval satisfies
`open <= hour <= close`. -/
theorem C5_hoursFilter (db : DB) (s : Search) (b : Business) (d h : Int)
    (hd : s.dayOfWeek = some d) (hh : s.hour = some h) :
    matchesSearch db s b = true ↔
      (matchesSearch db (clearDayHour s) b = true ∧
        ∃ hr ∈ db.hours, hr.businessId = b.id ∧ hr.dayOfWeek = d ∧
          hr.openH ≤ h ∧ h ≤ hr.close) := by
  unfold matchesSearch hoursCond clearDayHour
  rw [hd, hh]
  simp only [Bool.and_eq_true, List.any_eq_true, decide_eq_true_eq, beq_iff_eq]
  tauto

/-- C5 witness: for the Saturday-at-8 search, the business whose only
Saturday row is 8–18 matches while the one with 9–12 does not. -/
theorem C5_witness :
    matchesSearch dbSat sSat satOpen = true ∧
    matchesSearch dbSat sSat satLate = false := by
  constructor
  · exact (C5_hoursFilter dbSat sSat satOpen 6 8 rfl rfl).mpr
      ⟨by decide, ⟨"h1", "s1", 6, 8, 18⟩, by decide, by decide, by decide,
        by decide, by decide⟩
  · have hiff := C5_hoursFilter dbSat sSat satLate 6 8 rfl rfl
    cases hm : matchesSearch dbSat sSat satLate with
    | false => rfl
    | true => exact absurd (hiff.mp hm).2 (by decide)

/-- C6: with a `rating` filter supplied, a matching business necessarily has
a defined `avgRating` at least the given value, and a business with zero
reviews never matches (for any supplied rating value, including 0). -/
theorem C6_ratingFilter (db : DB) (s : Search) (b : Business) (r : ℚ)
    (hr : s.rating = some r) :
    (matchesSearch db s b = true → ∃ a, avgRating db b.id = some a ∧ r ≤ a) ∧
    (reviewsFor db b.id = [] → matchesSearch db s b = false) := by
  constructor
  · intro hm
    unfold matchesSearch at hm
    simp only [Bool.and_eq_true] at hm
    have hrc := hm.2
    unfold ratingCond at hrc
    rw [hr] at hrc
    cases ha : avgRating db b.id with
    | none => rw [ha] at hrc; cases hrc
    | some a =>
      rw [ha] at hrc
      exact ⟨a, rfl, by simpa using hrc⟩
  · intro hre
    unfold matchesSearch
    have hfalse : ratingCond db s b = false := by
      unfold ratingCond
      rw [hr, avgRating_empty db b.id hre]
    rw [hfalse, Bool.and_false]

/-- C6 witness: the review-less business of `dbNoRev` is excluded even by a
rating filter of 0. -/
theorem C6_witness : matchesSearch dbNoRev sRating0 noRevBiz = false :=
  (C6_ratingFilter dbNoRev sRating0 noRevBiz 0 rfl).2 (by decide)

/-- C7: for a search request passing validation, an empty filtered result
set yields NotFound (404) and a non-empty one yields 200 with exactly the
hydrated result list. -/
theorem C7_emptyDispatch (db : DB) (s : Search) (sortBy direction : String)
    (hv : validateSearch s = some (sortBy, direction)) :
    (searchItems db s sortBy direction = [] → searchHandler db s = .notFound) ∧
    (searchItems db s sortBy direction ≠ [] →
      searchHandler db s = .ok (searchItems db s sortBy direction)) := by
  unfold searchHandler
  simp only [hv]
  constructor
  · intro h
    rw [h]
    rfl
  · intro h
    cases hi : searchItems db s sortBy direction with
    | nil => exact absurd hi h
    | cons a t => rfl

/-- C7 witness: in `dbNoRev` a rating filter of 5 exceeds every business's
avgRating (the only business has none at all), the filtered result is
empty, and the handler answers NotFound. -/
theorem C7_witness :
    searchItems dbNoRev sRating5 "name" "asc" = [] ∧
    searchHandler dbNoRev sRating5 = .notFound := by
  have h0 : searchItems dbNoRev sRating5 "name" "asc" = [] := by decide
  exact ⟨h0, (C7_emptyDispatch dbNoRev sRating5 "name" "asc" rfl).1 h0⟩

/-- C8: hydration fetches each child collection independently with a
deterministic order (Locations/Services by name, Hours by dayOfWeek,
Reviews by creation time, all ascending) and represents an empty collection
as absent (`none`), never as an empty list. -/
theorem C8_aggregateFetcher (db : DB) (businessId : String) :
    ((getLocations db businessId = none ↔
        db.locations.filter (fun l => l.businessId == businessId) = []) ∧
      ∀ xs, getLocations db businessId = some xs →
        List.Sorted (fun a b : LocationRow => a.name ≤ b.name) xs ∧
        xs.Perm (db.locations.filter (fun l => l.businessId == businessId))) ∧
    ((getHours db businessId = none ↔
        db.hours.filter (fun h => h.businessId == businessId) = []) ∧
      ∀ xs, getHours db businessId = some xs →
        List.Sorted (fun a b : HourRow => a.dayOfWeek ≤ b.dayOfWeek) xs ∧
        xs.Perm (db.hours.filter (fun h => h.businessId == businessId))) ∧
    ((getServices db businessId = none ↔
        db.services.filter (fun s => s.businessId == businessId) = []) ∧
      ∀ xs, getServices db businessId = some xs →
        List.Sorted (fun a b : ServiceRow => a.name ≤ b.name) xs ∧
        xs.Perm (db.services.filter (fun s => s.businessId == businessId))) ∧
    ((getReviews db businessId = none ↔
        db.reviews.filter (fun r => r.businessId == businessId) = []) ∧
      ∀ xs, getReviews db businessId = some xs →
        List.Sorted (fun a b : ReviewRow => a.created_at ≤ b.created_at) xs ∧
        xs.Perm (db.reviews.filter (fun r => r.businessId == businessId))) := by
  refine ⟨⟨?_, ?_⟩, ⟨?_, ?_⟩, ⟨?_, ?_⟩, ⟨?_, ?_⟩⟩
  · exact fetch_none_iff _ _
  · intro xs h
    exact fetch_some_spec _ _ xs h
  · exact fetch_none_iff _ _
  · intro xs h
    exact fetch_some_spec _ _ xs h
  · exact fetch_none_iff _ _
  · intro xs h
    exact fetch_some_spec _ _ xs h
  · exact fetch_none_iff _ _
  · intro xs h
    exact fetch_some_spec _ _ xs h

/-- C8 witness: in `db8` the hours of `b1` come back sorted by dayOfWeek
and as a permutation of the stored rows, and a business with no rows gets
`none` (absent), not an empty list. -/
theorem C8_witness :
    List.Sorted (fun a b : HourRow => a.dayOfWeek ≤ b.dayOfWeek)
      [⟨"h1", "b1", 2, 9, 17⟩, ⟨"h2", "b1", 5, 9, 17⟩] ∧
    List.Perm [(⟨"h1", "b1", 2, 9, 17⟩ : HourRow), ⟨"h2", "b1", 5, 9, 17⟩]
      (db8.hours.filter (fun h => h.businessId == "b1")) ∧
    getLocations db8 "missing" = none := by
  obtain ⟨hsorted, hperm⟩ := (C8_aggregateFetcher db8 "b1").2.1.2
    [⟨"h1", "b1", 2, 9, 17⟩, ⟨"h2", "b1", 5, 9, 17⟩] (by decide)
  exact ⟨hsorted, hperm, (C8_aggregateFetcher db8 "missing").1.1.mpr (by decide)⟩

/-- C9: every valid search returns at most 25 businesses, and a search with
no fields supplied passes validation with the default name-ascending sort
and returns all stored businesses (when at most 25 exist) sorted by name. -/
theorem C9_searchCapAndDefault :
    (∀ db s sortBy direction, validateSearch s = some (sortBy, direction) →
      (searchItems db s sortBy direction).length ≤ MAX_BUSINESS_PER_PAGE) ∧
    validateSearch emptySearch = some ("name", "asc") ∧
    (∀ db : DB, ((searchItems db emptySearch "name" "asc").map
      HydratedBusiness.business).Sorted (fun a b => a.name ≤ b.name)) ∧
    (∀ db : DB, db.businesses.length ≤ MAX_BUSINESS_PER_PAGE →
      ((searchItems db emptySearch "name" "asc").map
        HydratedBusiness.business).Perm db.businesses) := by
  refine ⟨?_, rfl, ?_, ?_⟩
  · intro db s sortBy direction _
    unfold searchItems
    rw [List.length_map]
    exact List.length_take_le _ _
  · intro db
    have hfil : db.businesses.filter (fun b => matchesSearch db emptySearch b) =
        db.businesses := filterIdOn _ _ (fun b _ => matches_empty db b)
    unfold searchItems sortBusinesses
    rw [if_neg (by decide : ¬("asc" = "desc")), hfil, map_business_hydrate]
    have hsorted := List.sorted_insertionSort
      (fun a b : Business => sortLe db "name" a b = true) db.businesses
    exact List.Pairwise.sublist (List.take_sublist _ _)
      (List.Pairwise.imp (fun h => (sortLe_name db _ _).mp h) hsorted)
  · intro db hlen
    have hfil : db.businesses.filter (fun b => matchesSearch db emptySearch b) =
        db.businesses := filterIdOn _ _ (fun b _ => matches_empty db b)
    unfold searchItems sortBusinesses
    rw [if_neg (by decide : ¬("asc" = "desc")), hfil, map_business_hydrate]
    have hperm := List.perm_insertionSort
      (fun a b : Business => sortLe db "name" a b = true) db.businesses
    have hlen' : (List.insertionSort
        (fun a b : Business => sortLe db "name" a b = true) db.businesses).length ≤
        MAX_BUSINESS_PER_PAGE := by
      rw [hperm.length_eq]
      exact hlen
    rw [List.take_of_length_le hlen']
    exact hperm

/-- C9 witness: on the one-business store `db8` the capped search result has
at most 25 entries and is a permutation of all stored businesses. -/
theorem C9_witness :
    (searchItems db8 emptySearch "name" "asc").length ≤ MAX_BUSINESS_PER_PAGE ∧
    ((searchItems db8 emptySearch "name" "asc").map
      HydratedBusiness.business).Perm db8.businesses :=
  ⟨C9_searchCapAndDefault.1 db8 emptySearch "name" "asc" rfl,
    C9_searchCapAndDefault.2.2.2 db8 (by decide)⟩

/-- C1 counterexample: a `POST /businesses` whose nested Hour has
`open` 10 ≥ `close` 9 does NOT roll back — the create commits and both the
Business and the invalid Hour row exist afterwards (no store constraint
checks `open < close`, and the route does not validate nested hours). -/
theorem C1_counterexample :
    createBusiness dbEmpty pBadHour "b-1" genId 0 =
      CreateResult.created dbAfterBadHour "b-1" ∧
    dbAfterBadHour.businesses.map Business.id = ["b-1"] ∧
    dbAfterBadHour.hours = [⟨"child-0", "b-1", 1, 10, 9⟩] := by
  refine ⟨?_, rfl, rfl⟩
  decide

/-- C1 amended: creation is atomic with respect to real store-constraint
violations — a duplicated nested `dayOfWeek` makes the whole transaction
fail with the store exactly unchanged — but the `open`/`close` values of
nested hours play no role in whether the create commits, and a committed
create always contains the new Business. -/
theorem C1_createAtomicity (db : DB) (p : CreatePayload) (businessId : String)
    (gen : Nat → String) (now : Nat) :
    (¬ (p.hours.map HourPayload.dayOfWeek).Nodup →
      createBusiness db p businessId gen now = .badRequest ∨
      createBusiness db p businessId gen now = .storageError db) ∧
    (∀ f g, isCreated (createBusiness db (mapHourTimes f g p) businessId gen now) =
      isCreated (createBusiness db p businessId gen now)) ∧
    (∀ db', createBusiness db p businessId gen now = .created db' businessId →
      ∃ b ∈ db'.businesses, b.id = businessId) := by
  refine ⟨?_, ?_, ?_⟩
  · intro hdup
    unfold createBusiness
    cases ht : truthy p.name with
    | none => exact Or.inl rfl
    | some nm =>
      cases hloc : buildLocationRows businessId gen p.locations 0 with
      | none => exact Or.inr rfl
      | some locs =>
        cases hhr : buildHourRows businessId gen p.hours 0 with
        | none => exact Or.inr rfl
        | some hrs =>
          cases hsvc : buildServiceRows businessId gen p.services 0 with
          | none => exact Or.inr rfl
          | some svcs =>
            cases hrev : buildReviewRows businessId now gen p.reviews 0 with
            | none => exact Or.inr rfl
            | some revs =>
              right
              obtain ⟨hdays, hbid⟩ := buildHourRows_spec businessId gen p.hours 0 hrs hhr
              have hnd : ¬ (hrs.map HourRow.dayOfWeek).Nodup := by
                intro hnd
                apply hdup
                rw [hdays]
                have hms : hrs.map (fun r => some r.dayOfWeek) =
                    (hrs.map HourRow.dayOfWeek).map some := by
                  rw [List.map_map]
                  rfl
                rw [hms]
                exact hnd.map (Option.some_injective Int)
              have hkeys : ¬ (hrs.map (fun h => (h.businessId, h.dayOfWeek))).Nodup := by
                intro hk
                apply hnd
                have h1 : hrs.map (fun h => (h.businessId, h.dayOfWeek)) =
                    hrs.map (fun h => (businessId, h.dayOfWeek)) :=
                  mapCongrOn _ _ hrs (fun r hr => by rw [hbid r hr])
                have h2 : hrs.map (fun h => (businessId, h.dayOfWeek)) =
                    (hrs.map HourRow.dayOfWeek).map (fun d => (businessId, d)) := by
                  rw [List.map_map]
                  rfl
                rw [h1, h2] at hk
                exact hk.of_map _
              have hcond : uniqueInsertOk
                  (db.hours.map (fun h => (h.businessId, h.dayOfWeek)))
                  (hrs.map (fun h => (h.businessId, h.dayOfWeek))) = false := by
                unfold uniqueInsertOk
                rw [decide_eq_false hkeys]
                rfl
              simp [hcond]
  · intro f g
    unfold createBusiness mapHourTimes
    dsimp only
    cases ht : truthy p.name with
    | none => rfl
    | some nm =>
      rw [buildHourRows_mapTimes businessId gen f g p.hours 0]
      cases hloc : buildLocationRows businessId gen p.locations 0 with
      | none => rfl
      | some locs =>
        cases hhr : buildHourRows businessId gen p.hours 0 with
        | none => rfl
        | some hrs =>
          cases hsvc : buildServiceRows businessId gen p.services 0 with
          | none => rfl
          | some svcs =>
            cases hrev : buildReviewRows businessId now gen p.reviews 0 with
            | none => rfl
            | some revs =>
              simp only [Option.map_some']
              rw [keys_map_psi f g hrs]
              split_ifs <;> rfl
  · intro db' h
    unfold createBusiness at h
    rcases ht : truthy p.name with _ | nm
    · rw [ht] at h
      simp at h
    · rw [ht] at h
      rcases hloc : buildLocationRows businessId gen p.locations 0 with _ | locs <;>
        rw [hloc] at h
      · simp at h
      rcases hhr : buildHourRows businessId gen p.hours 0 with _ | hrs <;>
        rw [hhr] at h
      · simp at h
      rcases hsvc : buildServiceRows businessId gen p.services 0 with _ | svcs <;>
        rw [hsvc] at h
      · simp at h
      rcases hrev : buildReviewRows businessId now gen p.reviews 0 with _ | revs <;>
        rw [hrev] at h
      · simp at h
      dsimp only at h
      split_ifs at h
      injection h with h1 h2
      subst h1
      refine ⟨_, List.mem_append_right _ (List.mem_singleton.mpr rfl), rfl⟩

/-- C1 witness: a create whose nested hours duplicate `dayOfWeek` 2 either
is rejected up front or fails with the store rolled back to exactly its
previous (empty) state. -/
theorem C1_witness :
    createBusiness dbEmpty pDupDay "b-1" genId 0 = .badRequest ∨
    createBusiness dbEmpty pDupDay "b-1" genId 0 = .storageError dbEmpty :=
  (C1_createAtomicity dbEmpty pDupDay "b-1" genId 0).1 (by decide)

/-- C3 (code bug): the PUT guard reads the body under the misspelled key
`addressline2`, so a request supplying only `addressLine2` is rejected with
400 and no update happens — even though the update object itself handles
`addressLine2` correctly, as the second conjunct shows. -/
theorem C3_putAddressLine2Typo :
    putBusiness dbPut "b1" [("addressLine2", "Suite 100")] =
      OpResult.invalidArgument ∧
    putBusiness dbPut "b1" [("name", "NewName"), ("addressLine2", "Suite 100")] =
      OpResult.ok dbPutAfter := by
  constructor
  · decide
  · decide

theorem iteRowId {α : Type} (cond : α → Bool) (g : α → α) (l : List α)
    (h : ∀ x ∈ l, cond x = false) :
    l.map (fun x => if cond x then g x else x) = l :=
  mapIdOn _ l (fun x hx => by rw [h x hx]; rfl)

theorem filterRowAll {α : Type} (cond : α → Bool) (l : List α)
    (h : ∀ x ∈ l, cond x = false) :
    l.filter (fun x => !cond x) = l :=
  filterIdOn _ l (fun x hx => by rw [h x hx]; rfl)

theorem rowCondFalse {rid rbid id businessId : String}
    (h : ¬(rid = id ∧ rbid = businessId)) :
    (rid == id && rbid == businessId) = false := by
  by_cases h1 : rid = id
  · by_cases h2 : rbid = businessId
    · exact absurd ⟨h1, h2⟩ h
    · simp [h2]
  · simp [h1]

/-- C10 counterexample: an hours PUT whose body fails field validation
(dayOfWeek 9) returns 400, not 200, even though the parent business exists
and no hour row carries the target id. -/
theorem C10_counterexample :
    businessExists db8 "b1" = true ∧
    db8.hours.all (fun hr => !(hr.id == "zzz")) = true ∧
    hoursPut db8 "b1" "zzz" ⟨some 9, some 1, some 2⟩ =
      OpResult.invalidArgument := by
  refine ⟨by decide, by decide, by decide⟩

/-- C10 amended: when the parent business exists and no child row with the
given id belongs to it, every child DELETE, and every child PUT whose body
passes that child's field validation (i.e. is not rejected with 400),
returns 200 and leaves the store exactly unchanged. -/
theorem C10_childZeroRows (db : DB) (businessId id : String)
    (hb : businessExists db businessId = true) :
    (∀ p : HourPayload, hoursPut db businessId id p ≠ .invalidArgument →
      (∀ hr ∈ db.hours, ¬(hr.id = id ∧ hr.businessId = businessId)) →
      hoursPut db businessId id p = .ok db) ∧
    ((∀ hr ∈ db.hours, ¬(hr.id = id ∧ hr.businessId = businessId)) →
      hoursDelete db businessId id = .ok db) ∧
    (∀ p : LocationPayload, locationsPut db businessId id p ≠ .invalidArgument →
      (∀ l ∈ db.locations, ¬(l.id = id ∧ l.businessId = businessId)) →
      locationsPut db businessId id p = .ok db) ∧
    ((∀ l ∈ db.locations, ¬(l.id = id ∧ l.businessId = businessId)) →
      locationsDelete db businessId id = .ok db) ∧
    (∀ p : ServicePayload, servicesPut db businessId id p ≠ .invalidArgument →
      (∀ sv ∈ db.services, ¬(sv.id = id ∧ sv.businessId = businessId)) →
      servicesPut db businessId id p = .ok db) ∧
    ((∀ sv ∈ db.services, ¬(sv.id = id ∧ sv.businessId = businessId)) →
      servicesDelete db businessId id = .ok db) ∧
    (∀ p : ReviewPutPayload, reviewsPut db businessId id p ≠ .invalidArgument →
      (∀ r ∈ db.reviews, ¬(r.id = id ∧ r.businessId = businessId)) →
      reviewsPut db businessId id p = .ok db) ∧
    ((∀ r ∈ db.reviews, ¬(r.id = id ∧ r.businessId = businessId)) →
      reviewsDelete db businessId id = .ok db) := by
  have hnb : (!businessExists db businessId) = false := by
    rw [hb]
    rfl
  refine ⟨?_, ?_, ?_, ?_, ?_, ?_, ?_, ?_⟩
  · intro p hne hno
    rcases hday : p.dayOfWeek with _ | d
    · exact absurd (by unfold hoursPut; rw [hday]) hne
    rcases hopen : p.openH with _ | o
    · exact absurd (by unfold hoursPut; rw [hday, hopen]) hne
    rcases hclose : p.close with _ | c
    · exact absurd (by unfold hoursPut; rw [hday, hopen, hclose]) hne
    unfold hoursPut at hne ⊢
    rw [hday, hopen, hclose] at hne ⊢
    dsimp only at hne ⊢
    split_ifs at hne ⊢ with h1 h2 h3 h4 h5
    · exact absurd rfl hne
    · exact absurd rfl hne
    · exact absurd rfl hne
    · exact absurd rfl hne
    · rw [hnb] at h5
      exact absurd h5 (by decide)
    · rw [iteRowId _ _ db.hours (fun hr hmem => rowCondFalse (hno hr hmem))]
  · intro hno
    unfold hoursDelete
    rw [hnb, filterRowAll _ db.hours (fun hr hmem => rowCondFalse (hno hr hmem))]
    rfl
  · intro p hne hno
    unfold locationsPut at hne ⊢
    cases hname : truthy p.name with
    | none => rw [hname] at hne; exact absurd rfl hne
    | some nm =>
      dsimp only
      rw [hnb, iteRowId _ _ db.locations (fun l hmem => rowCondFalse (hno l hmem))]
      rfl
  · intro hno
    unfold locationsDelete
    rw [hnb, filterRowAll _ db.locations (fun l hmem => rowCondFalse (hno l hmem))]
    rfl
  · intro p hne hno
    unfold servicesPut at hne ⊢
    cases hname : truthy p.name with
    | none => rw [hname] at hne; exact absurd rfl hne
    | some nm =>
      dsimp only
      rw [hnb, iteRowId _ _ db.services (fun sv hmem => rowCondFalse (hno sv hmem))]
      rfl
  · intro hno
    unfold servicesDelete
    rw [hnb, filterRowAll _ db.services (fun sv hmem => rowCondFalse (hno sv hmem))]
    rfl
  · intro p hne hno
    unfold reviewsPut at hne ⊢
    split_ifs at hne ⊢ with h1 h2
    · exact absurd rfl hne
    · rw [hnb] at h2
      exact absurd h2 (by decide)
    · rw [iteRowId _ _ db.reviews (fun r hmem => rowCondFalse (hno r hmem))]
  · intro hno
    unfold reviewsDelete
    rw [hnb, filterRowAll _ db.reviews (fun r hmem => rowCondFalse (hno r hmem))]
    rfl

/-- C10 witness: on `db8`, a valid-body hours PUT and an hours DELETE aimed
at a child id that matches no row both answer 200 and leave the store
unchanged. -/
theorem C10_witness :
    hoursPut db8 "b1" "zzz" ⟨some 3, some 9, some 17⟩ = .ok db8 ∧
    hoursDelete db8 "b1" "zzz" = .ok db8 ∧
    locationsDelete db8 "b1" "zzz" = .ok db8 := by
  obtain ⟨hput, hdel, _, hldel, _⟩ := C10_childZeroRows db8 "b1" "zzz" (by decide)
  exact ⟨hput ⟨some 3, some 9, some 17⟩ (by decide) (by decide),
    hdel (by decide), hldel (by decide)⟩

/-- C4 counterexample: supplying `sortBy` as the empty string satisfies the
claim's 400 condition ("supplied and not name/rating"), yet the route treats
the falsy value as absent and answers with the defaulted sort instead of
400. -/
theorem C4_counterexample :
    specSearchInvalid sEmptySortBy = true ∧
    validateSearch sEmptySortBy = some ("name", "asc") := by
  constructor
  · decide
  · decide

/-- C4 amended: search validation fails with 400 (before any query) exactly
when one of the listed conditions holds, with "supplied" read as JavaScript
truthiness for `sortBy`/`sortDirection` (an empty string counts as absent
and is defaulted); an absent `sortBy` defaults to `name` and an absent
`sortDirection` to `asc`. -/
theorem C4_searchValidation (s : Search) :
    (validateSearch s = none ↔ specSearchInvalidAmended s = true) ∧
    (∀ sortBy direction, validateSearch s = some (sortBy, direction) →
      (s.sortBy = none → sortBy = "name") ∧
      (s.sortDirection = none → direction = "asc")) := by
  simp only [validateSearch, validateSearch.withDirection, specSearchInvalidAmended,
    specExactlyOneOfDayHour]
  split_ifs with h1 h2 h3
  · exact ⟨by simp [h1], fun _ _ hv => hv.elim⟩
  · exact ⟨by simp [h2], fun _ _ hv => hv.elim⟩
  · exact ⟨by simp [h3], fun _ _ hv => hv.elim⟩
  · simp only [Bool.not_eq_true] at h1 h2 h3
    rw [h1, h2, h3]
    simp only [Bool.false_or]
    cases htb : truthy s.sortBy with
    | none =>
      dsimp only
      simp only [specSortByBad, Bool.false_or]
      cases htd : truthy s.sortDirection with
      | none =>
        dsimp only
        constructor
        · simp [specSortDirectionBad]
        · intro sortBy direction hv
          rw [Option.some_inj, Prod.mk.injEq] at hv
          exact ⟨fun _ => hv.1.symm, fun _ => hv.2.symm⟩
      | some sd0 =>
        dsimp only
        split_ifs with h4
        · simp only [Bool.or_eq_true, decide_eq_true_eq] at h4
          constructor
          · constructor
            · intro habs
              exact habs.elim
            · intro habs
              simp only [specSortDirectionBad, Bool.not_eq_true', Bool.or_eq_true,
                beq_iff_eq, Bool.or_eq_false_iff, beq_eq_false_iff_ne] at habs
              rcases h4 with h4 | h4
              · exact habs.1 h4
              · exact habs.2 h4
          · intro sortBy direction hv
            rw [Option.some_inj, Prod.mk.injEq] at hv
            refine ⟨fun _ => hv.1.symm, fun hnone => ?_⟩
            rw [hnone] at htd
            exact Option.noConfusion htd
        · constructor
          · constructor
            · intro _
              simp only [Bool.or_eq_true, decide_eq_true_eq, not_or] at h4
              simp [specSortDirectionBad, h4.1, h4.2]
            · intro _
              rfl
          · intro _ _ hv
            exact hv.elim
    | some sb0 =>
      dsimp only
      split_ifs with h4
      · simp only [Bool.or_eq_true, decide_eq_true_eq] at h4
        have hsbb : specSortByBad (some sb0) = false := by
          simp only [specSortByBad, Bool.not_eq_false', Bool.or_eq_true, beq_iff_eq]
          exact h4
        rw [hsbb]
        simp only [Bool.false_or]
        cases htd : truthy s.sortDirection with
        | none =>
          dsimp only
          constructor
          · simp [specSortDirectionBad]
          · intro sortBy direction hv
            rw [Option.some_inj, Prod.mk.injEq] at hv
            refine ⟨fun hnone => ?_, fun _ => hv.2.symm⟩
            rw [hnone] at htb
            exact Option.noConfusion htb
        | some sd0 =>
          dsimp only
          split_ifs with h5
          · simp only [Bool.or_eq_true, decide_eq_true_eq] at h5
            constructor
            · constructor
              · intro habs
                exact habs.elim
              · intro habs
                simp only [specSortDirectionBad, Bool.not_eq_true', Bool.or_eq_true,
                  beq_iff_eq, Bool.or_eq_false_iff, beq_eq_false_iff_ne] at habs
                rcases h5 with h5 | h5
                · exact habs.1 h5
                · exact habs.2 h5
            · intro sortBy direction hv
              rw [Option.some_inj, Prod.mk.injEq] at hv
              refine ⟨fun hnone => ?_, fun hnone => ?_⟩
              · rw [hnone] at htb
                exact Option.noConfusion htb
              · rw [hnone] at htd
                exact Option.noConfusion htd
          · constructor
            · constructor
              · intro _
                simp only [Bool.or_eq_true, decide_eq_true_eq, not_or] at h5
                simp [specSortDirectionBad, h5.1, h5.2]
              · intro _
                rfl
            · intro _ _ hv
              exact hv.elim
      · constructor
        · constructor
          · intro _
            simp only [Bool.or_eq_true, decide_eq_true_eq, not_or] at h4
            simp [specSortByBad, h4.1, h4.2]
          · intro _
            rfl
        · intro _ _ hv
          exact hv.elim

/-- C4 witness: an out-of-range `dayOfWeek` satisfies the amended 400
condition, and a search with both sort fields absent is validated with the
defaults `name`/`asc`. -/
theorem C4_witness :
    specSearchInvalidAmended sBadDay = true ∧
    validateSearch sRating5 = some ("name", "asc") := by
  constructor
  · exact (C4_searchValidation sBadDay).1.mp (by decide)
  · decide

end HomeAdvisor
